import Mathlib

/-!
Verification of the ITB earthquake fatality model
(`safe/impact_functions/earthquake/itb_earthquake_fatality_model.py`).

Raster grids are embedded as lists of cells; a cell is either the IEEE
not-a-number value (the no-data marker of numpy) or a real number.  Comparisons
involving NaN are false and arithmetic on NaN propagates it, matching the IEEE
semantics numpy uses.  The whole-grid numpy expressions of
`ITBFatalityFunction.run` become cell-wise list operations.
-/

namespace ITBQuake

/-- A raster grid cell: the no-data sentinel (IEEE NaN) or a real value. -/
inductive Cell where
  | nan : Cell
  | val : ℝ → Cell

/-- Model coefficient `x` from `ITBFatalityFunction.parameters` (0.62275231). -/
noncomputable def x : ℝ := 62275231 / 100000000

/-- Model coefficient `y` from `ITBFatalityFunction.parameters` (8.03314466). -/
noncomputable def y : ℝ := 803314466 / 100000000

/-- Parameter `step` (0.5): half-width of each intensity band. -/
noncomputable def step : ℝ := 1 / 2

/-- Parameter `tolerance` (0.01): threshold below which the layer is transparent. -/
noncomputable def tolerance : ℝ := 1 / 100

/-- Parameter `mmi_range` (`range(2, 10)`): the configured intensity bands. -/
def mmi_range : List ℕ := [2, 3, 4, 5, 6, 7, 8, 9]

/-- Parameter `calculate_displaced_people` (True). -/
def calculate_displaced_people : Bool := true

/-- Parameter `displacement_rate`: the dict {1: 0, ..., 5: 0, 6: 1.0, ..., 10: 1.0};
a band outside the keys raises a `KeyError` inside `run`. -/
noncomputable def displacement_rate (m : ℕ) : Option ℝ :=
  if 1 ≤ m ∧ m ≤ 5 then some 0 else if 6 ≤ m ∧ m ≤ 10 then some 1 else none

/-- Value actually used for a band that is present in `displacement_rate`. -/
noncomputable def drOf (m : ℕ) : ℝ := (displacement_rate m).getD 0

/-- `ITBFatalityFunction.fatality_rate`: 0 below MMI 4, otherwise
`10 ** (x * mmi - y)` (`numpy.power`). -/
noncomputable def fatality_rate (mmi : ℝ) : ℝ :=
  if mmi < 4 then 0 else (10 : ℝ) ^ (x * mmi - y)

/-- Multiplication of a cell by a real scalar; `r * NaN` is NaN (IEEE), even
when `r = 0`, exactly as in numpy. -/
noncomputable def cMulScalar (r : ℝ) : Cell → Cell
  | Cell.nan => Cell.nan
  | Cell.val v => Cell.val (r * v)

/-- Cell-wise scaling of a whole grid, e.g. `F = fatality_rate * I`. -/
noncomputable def cellScale (r : ℝ) (g : List Cell) : List Cell :=
  g.map (cMulScalar r)

/-- IEEE addition of two cells: NaN propagates. -/
noncomputable def cAdd : Cell → Cell → Cell
  | Cell.val a, Cell.val b => Cell.val (a + b)
  | _, _ => Cell.nan

/-- IEEE subtraction of two cells: NaN propagates. -/
noncomputable def cSub : Cell → Cell → Cell
  | Cell.val a, Cell.val b => Cell.val (a - b)
  | _, _ => Cell.nan

/-- IEEE multiplication of two cells: NaN propagates. -/
noncomputable def cMul : Cell → Cell → Cell
  | Cell.val a, Cell.val b => Cell.val (a * b)
  | _, _ => Cell.nan

/-- IEEE division of two cells: NaN propagates. -/
noncomputable def cDiv : Cell → Cell → Cell
  | Cell.val a, Cell.val b => Cell.val (a / b)
  | _, _ => Cell.nan

/-- One cell of `numpy.where((H > mmi - step) * (H <= mmi + step), P, 0)`:
comparisons against a NaN intensity are false, so such cells select 0; a
selected population cell is passed through unchanged (it may itself be NaN). -/
noncomputable def selectCell (mmi : ℕ) (h p : Cell) : Cell :=
  match h with
  | Cell.nan => Cell.val 0
  | Cell.val hv =>
      if (mmi : ℝ) - step < hv ∧ hv ≤ (mmi : ℝ) + step then p else Cell.val 0

/-- One cell of `numpy.where(D > F, D - F, 0)`: any comparison involving NaN is
false, so a cell where either operand is NaN yields 0. -/
noncomputable def gtClamp (d f : Cell) : Cell :=
  match d, f with
  | Cell.val a, Cell.val b => if b < a then Cell.val (a - b) else Cell.val 0
  | _, _ => Cell.val 0

/-- One cell of `R[R < tolerance] = numpy.nan`: a value below the tolerance
becomes NaN; a NaN compares false and is left as NaN. -/
noncomputable def thresholdCell (tol : ℝ) (c : Cell) : Cell :=
  match c with
  | Cell.nan => Cell.nan
  | Cell.val v => if v < tol then Cell.nan else Cell.val v

/-- Contribution of a cell to a `numpy.nansum`: NaN counts as 0. -/
noncomputable def cellOrZero : Cell → ℝ
  | Cell.nan => 0
  | Cell.val v => v

/-- `numpy.nansum` over a grid: sum of all cells, NaN counting as 0. -/
noncomputable def nansum (g : List Cell) : ℝ :=
  (g.map cellOrZero).sum

/-- A cell is non-negative when it is NaN or holds a value `>= 0` (the
precondition the spec places on the population grid). -/
def CellNonneg (c : Cell) : Prop := ∀ v, c = Cell.val v → 0 ≤ v

/-- Membership of an intensity cell in band `mmi`, the condition tested by
`numpy.where((H > mmi - step) * (H <= mmi + step), P, 0)`. -/
def inBand (mmi : ℕ) (c : Cell) : Prop :=
  ∃ v, c = Cell.val v ∧ (mmi : ℝ) - step < v ∧ v ≤ (mmi : ℝ) + step

/-- Grid `I` of `run`: population co-selected where the intensity lies in band `mmi`. -/
noncomputable def bandI (H P : List Cell) (mmi : ℕ) : List Cell :=
  List.zipWith (selectCell mmi) H P

/-- Grid `F` of `run`: expected fatalities per cell for band `mmi`. -/
noncomputable def bandF (H P : List Cell) (mmi : ℕ) : List Cell :=
  cellScale (fatality_rate mmi) (bandI H P mmi)

/-- Grid `D` of `run`: displacement per cell for band `mmi` with table rate `dr`,
clamped to 0 wherever the naive displacement does not exceed the fatalities. -/
noncomputable def bandDgrid (H P : List Cell) (mmi : ℕ) (dr : ℝ) : List Cell :=
  List.zipWith gtClamp (cellScale dr (bandI H P mmi)) (bandF H P mmi)

/-- `number_of_exposed[mmi]` in `run`. -/
noncomputable def bandExposed (H P : List Cell) (mmi : ℕ) : ℝ :=
  nansum (bandI H P mmi)

/-- `number_of_fatalities[mmi]` in `run`. -/
noncomputable def bandFatalities (H P : List Cell) (mmi : ℕ) : ℝ :=
  nansum (bandF H P mmi)

/-- `number_of_displaced[mmi]` in `run`. -/
noncomputable def bandDisplaced (H P : List Cell) (mmi : ℕ) (dr : ℝ) : ℝ :=
  nansum (bandDgrid H P mmi dr)

/-- Accumulated output grid `R` just before the transparency threshold is
applied: `R = numpy.zeros(H.shape)` followed by `R += D` for each band. -/
noncomputable def preR (H P : List Cell) : List Cell :=
  mmi_range.foldl
    (fun acc m => List.zipWith cAdd acc (bandDgrid H P m (drOf m)))
    (List.replicate H.length (Cell.val 0))

/-- Python 2 `round`: round half away from zero, as an integer. -/
noncomputable def pyRound (q : ℝ) : ℤ :=
  if 0 ≤ q then Int.floor (q + 1 / 2) else Int.ceil (q - 1 / 2)

/-- The `if fatalities < 50: fatalities = 0` policy of `run`. -/
def suppressFatalities (f : ℤ) : ℤ := if f < 50 then 0 else f

/-- Lines 249-254 of `run`: fatalities are rounded to the nearest 1000 and then
suppressed to 0 when the rounded figure is below 50. -/
noncomputable def reportedFatalities (raw : ℝ) : ℤ :=
  suppressFatalities (pyRound (raw / 1000) * 1000)

/-- Sum of the per-band aggregates (`nansum(dict.values())` in `run`; the
per-band values are plain reals). -/
noncomputable def sumSnd (l : List (ℕ × ℝ)) : ℝ := (l.map Prod.snd).sum

/-- Real values of a grid, in order, with the NaN cells dropped. -/
def realValues (g : List Cell) : List ℝ :=
  g.filterMap fun c => match c with | Cell.nan => none | Cell.val v => some v

/-- `numpy.nanmin`: smallest non-NaN value of the grid, NaN when there is none. -/
noncomputable def nanmin (g : List Cell) : Cell :=
  match realValues g with
  | [] => Cell.nan
  | v :: vs => Cell.val (vs.foldl min v)

/-- `numpy.nanmax`: largest non-NaN value of the grid, NaN when there is none. -/
noncomputable def nanmax (g : List Cell) : Cell :=
  match realValues g with
  | [] => Cell.nan
  | v :: vs => Cell.val (vs.foldl max v)

/-- `numpy.linspace(a, b, 5)`: the five points `a + i * (b - a) / 4`;
numpy computes `start + i * step` and sets the endpoint to `stop`, which over
the reals is the same list.  A NaN endpoint makes every entry NaN (the `i = 0`
entry is `a + 0 * step`, and `0 * NaN` is NaN). -/
noncomputable def linspace5 (a b : Cell) : List Cell :=
  [cAdd a (cMul (Cell.val 0) (cDiv (cSub b a) (Cell.val 4))),
   cAdd a (cMul (Cell.val 1) (cDiv (cSub b a) (Cell.val 4))),
   cAdd a (cMul (Cell.val 2) (cDiv (cSub b a) (Cell.val 4))),
   cAdd a (cMul (Cell.val 3) (cDiv (cSub b a) (Cell.val 4))),
   cAdd a (cMul (Cell.val 4) (cDiv (cSub b a) (Cell.val 4)))]

/-- `classes = numpy.linspace(numpy.nanmin(R.flat), numpy.nanmax(R.flat), 5)`. -/
noncomputable def classesOf (R : List Cell) : List Cell :=
  linspace5 (nanmin R) (nanmax R)

/-- Modelled from the spec: `humanize_class` (safe.common.utilities, not under
src/) turns the list of class boundary values into one (lower, upper) interval
per boundary: the first class spans from 0 to the smallest boundary and each
later class spans between consecutive boundaries.  String rendering of the
bounds is elided; the interval keeps the raw bound pair. -/
noncomputable def humanize_class (classes : List Cell) : List (Cell × Cell) :=
  List.zip (Cell.val 0 :: classes) classes

/-- The fixed 5-entry palette of `run`. -/
def colours : List String :=
  [("#EEFFEE"), ("#FFFF7F"), ("#E15500"), ("#E4001B"), ("#730000")]

/-- Boundary displayed for a class: `classes[i]` is replaced by 999999 when it
is NaN, then `int(round(...))` is applied (999999 rounds to itself). -/
noncomputable def boundaryQuantity : Cell → ℤ
  | Cell.nan => 999999
  | Cell.val v => pyRound v

/-- One entry of `style_classes` in `run`.  The `label` keeps the humanized
interval as its raw bound pair (string rendering elided). -/
structure StyleClass where
  colour : String
  quantity : ℤ
  transparency : ℕ
  label : Cell × Cell

open Classical in
/-- Build one style class from its humanized interval, raw boundary and colour,
as the loop body of `run` does. -/
noncomputable def mkStyleClass (iv : Cell × Cell) (c : Cell) (col : String) : StyleClass :=
  { colour := col
    quantity := boundaryQuantity c
    transparency := if iv.1 = Cell.val 0 then 100 else 30
    label := iv }

/-- Three-way zip used to pair intervals, boundaries and popped colours. -/
noncomputable def zip3With {α β γ δ : Type} (f : α → β → γ → δ) :
    List α → List β → List γ → List δ
  | a :: as, b :: bs, c :: cs => f a b c :: zip3With f as bs cs
  | _, _, _ => []

/-- The dynamically computed `style_classes` of `run` for an output grid. -/
noncomputable def style_classes (R : List Cell) : List StyleClass :=
  zip3With mkStyleClass (humanize_class (classesOf R)) (classesOf R) colours

/-- Values stored in the keyword dictionary of the result layer.  Rendered report
text (tables, notes) carries no claimed content and is elided as `KW.text`. -/
inductive KW where
  | text : KW
  | str : String → KW
  | int : ℤ → KW
  | table : List (ℕ × ℝ) → KW

/-- The keyword dictionary attached to the returned `Raster`, with exactly the
keys of the source (including the `fatalites_per_mmi` spelling). -/
noncomputable def mkKeywords (total fatalities : ℤ)
    (es fs ds : List (ℕ × ℝ)) : List (String × KW) :=
  [(("impact_summary"), KW.text),
   (("total_population"), KW.int total),
   (("total_fatalities"), KW.int fatalities),
   (("fatalites_per_mmi"), KW.table fs),
   (("exposed_per_mmi"), KW.table es),
   (("displaced_per_mmi"), KW.table ds),
   (("impact_table"), KW.text),
   (("map_title"), KW.str (("Earthquake impact to population"))),
   (("legend_notes"), KW.text),
   (("legend_units"), KW.str (("(people per cell)"))),
   (("legend_title"), KW.str (("Population density")))]

/-- The computational content of the `Raster` returned by `run`: final grid,
per-band statistics, headline totals, style classes and keyword dictionary. -/
structure RunResult where
  R : List Cell
  exposed_per_mmi : List (ℕ × ℝ)
  fatalities_per_mmi : List (ℕ × ℝ)
  displaced_per_mmi : List (ℕ × ℝ)
  total_population : ℤ
  total_fatalities : ℤ
  displaced : ℤ
  style_info : List StyleClass
  keywords : List (String × KW)

/-- Error message for the `KeyError` branch of the band loop. -/
def keyErrorMsg (m : ℕ) : String := toString m

/-- The per-band loop of `run`: for each configured band, select the exposed
population, compute fatalities and clamped displacement, accumulate the output
grid and record the three per-band aggregates; a band missing from
`displacement_rate` raises (`InaSAFEError`). -/
noncomputable def runBands :
    List ℕ → List Cell → List Cell → List Cell →
      Except String (List Cell × List (ℕ × ℝ) × List (ℕ × ℝ) × List (ℕ × ℝ))
  | [], _, _, R => Except.ok (R, [], [], [])
  | m :: rest, H, P, R =>
    match displacement_rate m with
    | none => Except.error (keyErrorMsg m)
    | some dr =>
      match runBands rest H P (List.zipWith cAdd R (bandDgrid H P m dr)) with
      | Except.error e => Except.error e
      | Except.ok (Rf, es, fs, ds) =>
          Except.ok (Rf, (m, bandExposed H P m) :: es,
                     (m, bandFatalities H P m) :: fs,
                     (m, bandDisplaced H P m dr) :: ds)

/-- `ITBFatalityFunction.run` on two extracted data grids: band loop,
transparency threshold, headline totals with their rounding and suppression
policies, dynamic style classes, and the keyword dictionary of the result. -/
noncomputable def run (H P : List Cell) : Except String RunResult :=
  match runBands mmi_range H P (List.replicate H.length (Cell.val 0)) with
  | Except.error e => Except.error e
  | Except.ok (R0, es, fs, ds) =>
    let R := R0.map (thresholdCell tolerance)
    let total := pyRound (nansum P / 1000) * 1000
    let fatalities := reportedFatalities (sumSnd fs)
    let displaced :=
      if calculate_displaced_people then pyRound (sumSnd ds / 1000) * 1000 else 0
    Except.ok
      { R := R
        exposed_per_mmi := es
        fatalities_per_mmi := fs
        displaced_per_mmi := ds
        total_population := total
        total_fatalities := fatalities
        displaced := displaced
        style_info := style_classes R
        keywords := mkKeywords total fatalities es fs ds }

/-- Closed form of the result `run` produces on the default configuration. -/
noncomputable def mkResult (H P : List Cell) : RunResult :=
  { R := (preR H P).map (thresholdCell tolerance)
    exposed_per_mmi := mmi_range.map fun m => (m, bandExposed H P m)
    fatalities_per_mmi := mmi_range.map fun m => (m, bandFatalities H P m)
    displaced_per_mmi := mmi_range.map fun m => (m, bandDisplaced H P m (drOf m))
    total_population := pyRound (nansum P / 1000) * 1000
    total_fatalities :=
      reportedFatalities (sumSnd (mmi_range.map fun m => (m, bandFatalities H P m)))
    displaced :=
      pyRound (sumSnd (mmi_range.map fun m => (m, bandDisplaced H P m (drOf m))) / 1000) * 1000
    style_info := style_classes ((preR H P).map (thresholdCell tolerance))
    keywords :=
      mkKeywords (pyRound (nansum P / 1000) * 1000)
        (reportedFatalities (sumSnd (mmi_range.map fun m => (m, bandFatalities H P m))))
        (mmi_range.map fun m => (m, bandExposed H P m))
        (mmi_range.map fun m => (m, bandFatalities H P m))
        (mmi_range.map fun m => (m, bandDisplaced H P m (drOf m))) }

/-- Error message of the shape precondition of the engine driver. -/
def shapeCheckMsg : String := ("Input grids have different shapes")

/-- Modelled from the spec: the engine driver (`safe.engine.core.calculate_impact`
and its `check_data_integrity`, not under src/) verifies that the hazard and
exposure grids share one shape before handing them to the `run` method of the impact
function; a mismatch is a fatal precondition violation raised before any per-band
processing begins. -/
noncomputable def engineRun (H P : List Cell) : Except String RunResult :=
  if H.length = P.length then run H P else Except.error shapeCheckMsg

/-- Demonstration intensity grid: a single no-data cell. -/
def demoH : List Cell := [Cell.nan]

/-- Demonstration population grid: a single cell holding 5 people. -/
def demoP : List Cell := [Cell.val 5]

theorem nansum_nil : nansum [] = 0 := by simp [nansum]

theorem nansum_cons (c : Cell) (l : List Cell) :
    nansum (c :: l) = cellOrZero c + nansum l := by simp [nansum]

theorem cellOrZero_nonneg {c : Cell} (h : CellNonneg c) : 0 ≤ cellOrZero c := by
  cases c with
  | nan => simp [cellOrZero]
  | val v => exact h v rfl

theorem nansum_nonneg {l : List Cell} (h : ∀ c ∈ l, CellNonneg c) : 0 ≤ nansum l := by
  induction l with
  | nil => simp [nansum]
  | cons c t ih =>
    rw [nansum_cons]
    have h1 := cellOrZero_nonneg (h c (List.mem_cons_self c t))
    have h2 := ih fun d hd => h d (List.mem_cons_of_mem c hd)
    linarith

theorem fatality_rate_nonneg (mmi : ℝ) : 0 ≤ fatality_rate mmi := by
  unfold fatality_rate
  split
  · exact le_refl 0
  · exact Real.rpow_nonneg (by norm_num) _

theorem fatality_rate_le_one {mmi : ℝ} (h : mmi ≤ 12) : fatality_rate mmi ≤ 1 := by
  unfold fatality_rate
  split
  · norm_num
  · apply Real.rpow_le_one_of_one_le_of_nonpos (by norm_num)
    have hx : x * mmi ≤ x * 12 := by
      apply mul_le_mul_of_nonneg_left h
      norm_num [x]
    norm_num [x, y] at hx ⊢
    linarith

theorem pyRound_mono {a b : ℝ} (h : a ≤ b) : pyRound a ≤ pyRound b := by
  unfold pyRound
  by_cases ha : 0 ≤ a
  · rw [if_pos ha, if_pos (le_trans ha h)]
    exact Int.floor_le_floor (by linarith)
  · by_cases hb : 0 ≤ b
    · rw [if_neg ha, if_pos hb]
      have h1 : Int.ceil (a - 1 / 2) ≤ (0 : ℤ) := by
        apply Int.ceil_le.mpr
        push_cast
        linarith [not_le.mp ha]
      have h2 : (0 : ℤ) ≤ Int.floor (b + 1 / 2) := by
        apply Int.le_floor.mpr
        push_cast
        linarith
      omega
    · rw [if_neg ha, if_neg hb]
      exact Int.ceil_le_ceil (by linarith)

/-- C1: for every real intensity `mmi`, `fatality_rate` returns exactly 0 when
`mmi < 4` and `10 ^ (x * mmi - y)` when `mmi >= 4`, with the default
coefficients x = 0.62275231 and y = 8.03314466. -/
theorem fatality_rate_branches (mmi : ℝ) :
    (mmi < 4 → fatality_rate mmi = 0) ∧
    (4 ≤ mmi → fatality_rate mmi = (10 : ℝ) ^ (x * mmi - y)) ∧
    x = 62275231 / 100000000 ∧ y = 803314466 / 100000000 := by
  refine ⟨fun h => ?_, fun h => ?_, rfl, rfl⟩
  · unfold fatality_rate
    rw [if_pos h]
  · unfold fatality_rate
    rw [if_neg (not_lt.mpr h)]

/-- Witness for C1 at mmi = 3 (zero branch) and mmi = 7 (power branch). -/
theorem fatality_rate_branches_check :
    fatality_rate 3 = 0 ∧ fatality_rate 7 = (10 : ℝ) ^ (x * 7 - y) :=
  ⟨(fatality_rate_branches 3).1 (by norm_num),
   (fatality_rate_branches 7).2.1 (by norm_num)⟩

/-- C7 fails: at mmi = 13 the fatality rate is `10 ^ (x * 13 - y)` with a
positive exponent, hence strictly greater than 1, so `fatality_rate` does not
map every real intensity into [0, 1]. -/
theorem fatality_rate_exceeds_one : 1 < fatality_rate 13 := by
  unfold fatality_rate
  rw [if_neg (by norm_num)]
  rw [Real.one_lt_rpow_iff_of_pos (by norm_num)]
  left
  constructor
  · norm_num
  · norm_num [x, y]

/-- C7 amended: `fatality_rate` is always non-negative, and lies in [0, 1]
whenever `mmi ≤ 12` (the curve crosses 1 near mmi = 12.9, beyond the MMI
scale); for larger arguments it exceeds 1. -/
theorem fatality_rate_unit_range (mmi : ℝ) :
    0 ≤ fatality_rate mmi ∧ (mmi ≤ 12 → fatality_rate mmi ≤ 1) :=
  ⟨fatality_rate_nonneg mmi, fun h => fatality_rate_le_one h⟩

/-- Witness for the amended C7 at mmi = 7. -/
theorem fatality_rate_unit_range_check :
    0 ≤ fatality_rate 7 ∧ fatality_rate 7 ≤ 1 :=
  ⟨(fatality_rate_unit_range 7).1, (fatality_rate_unit_range 7).2 (by norm_num)⟩

/-- C2 fails: a raw aggregated fatality count of exactly 50 is reported as 0,
not 50, because `run` first rounds to the nearest 1000 (giving 0) and only then
applies the `< 50` suppression. -/
theorem fatalities_fifty_reported_zero :
    reportedFatalities 50 = 0 ∧ reportedFatalities 50 ≠ 50 := by
  have h : pyRound ((50 : ℝ) / 1000) = 0 := by
    unfold pyRound
    rw [if_pos (by norm_num)]
    rw [Int.floor_eq_zero_iff]
    constructor <;> norm_num
  refine ⟨?_, ?_⟩ <;> simp [reportedFatalities, suppressFatalities, h]

/-- C2 amended: the reported fatality total is 0 whenever the raw aggregate is
below 500 (i.e. rounds to 0 at the nearest-1000 granularity used by `run`);
when the raw aggregate is at least 500 the rounded figure is at least 1000 and
is reported unsuppressed.  In particular a raw aggregate of exactly 50 is
reported as 0, since rounding to the nearest 1000 precedes the `< 50` check. -/
theorem reported_fatalities_policy (raw : ℝ) (h0 : 0 ≤ raw) :
    (raw < 500 → reportedFatalities raw = 0) ∧
    (500 ≤ raw →
      reportedFatalities raw = pyRound (raw / 1000) * 1000 ∧
      1000 ≤ reportedFatalities raw) := by
  have hnn : (0 : ℝ) ≤ raw / 1000 := by positivity
  constructor
  · intro h
    have hq : pyRound (raw / 1000) = 0 := by
      unfold pyRound
      rw [if_pos hnn]
      rw [Int.floor_eq_zero_iff]
      have hlt : raw / 1000 < 1 / 2 := by
        rw [div_lt_iff₀ (by norm_num : (0 : ℝ) < 1000)]
        linarith
      constructor
      · linarith
      · linarith
    simp [reportedFatalities, suppressFatalities, hq]
  · intro h
    have hq : 1 ≤ pyRound (raw / 1000) := by
      unfold pyRound
      rw [if_pos hnn]
      apply Int.le_floor.mpr
      push_cast
      have : (1 : ℝ) / 2 ≤ raw / 1000 := by
        rw [le_div_iff₀ (by norm_num : (0 : ℝ) < 1000)]
        linarith
      linarith
    have hge : 1000 ≤ pyRound (raw / 1000) * 1000 := by nlinarith
    have hns : ¬(pyRound (raw / 1000) * 1000 < 50) := by omega
    refine ⟨?_, ?_⟩ <;>
      simp [reportedFatalities, suppressFatalities, if_neg hns, hge]

/-- Witness for the amended C2: a raw aggregate of 300 is reported as 0 and a
raw aggregate of 2600 is reported as its nearest-1000 rounding. -/
theorem reported_fatalities_policy_check :
    reportedFatalities 300 = 0 ∧ 1000 ≤ reportedFatalities 2600 :=
  ⟨(reported_fatalities_policy 300 (by norm_num)).1 (by norm_num),
   ((reported_fatalities_policy 2600 (by norm_num)).2 (by norm_num)).2⟩

theorem mem_zipWith_imp {α β γ : Type} (f : α → β → γ) :
    ∀ (A : List α) (B : List β) (c : γ), c ∈ List.zipWith f A B →
      ∃ a b, a ∈ A ∧ b ∈ B ∧ c = f a b := by
  intro A
  induction A with
  | nil =>
    intro B c hc
    simp at hc
  | cons a A ih =>
    intro B c hc
    cases B with
    | nil => simp at hc
    | cons b B =>
      rw [List.zipWith_cons_cons] at hc
      rcases List.mem_cons.mp hc with h | h
      · exact ⟨a, b, List.mem_cons_self a A, List.mem_cons_self b B, h⟩
      · rcases ih B c h with ⟨a2, b2, ha, hb, he⟩
        exact ⟨a2, b2, List.mem_cons_of_mem a ha, List.mem_cons_of_mem b hb, he⟩

theorem val_zero_nonneg : CellNonneg (Cell.val 0) := by
  intro v hv
  injection hv with h
  simp [← h]

theorem clamp_cell_bounds {r d : ℝ} (hr : r ≤ 1) (hd : d ≤ 1) {c : Cell}
    (hc : CellNonneg c) :
    0 ≤ cellOrZero (gtClamp (cMulScalar d c) (cMulScalar r c)) ∧
    cellOrZero (gtClamp (cMulScalar d c) (cMulScalar r c)) ≤
      cellOrZero c - cellOrZero (cMulScalar r c) := by
  cases c with
  | nan => simp [cMulScalar, gtClamp, cellOrZero]
  | val v =>
    have hv : 0 ≤ v := hc v rfl
    by_cases hdf : r * v < d * v
    · simp only [cMulScalar, gtClamp, if_pos hdf, cellOrZero]
      constructor
      · linarith
      · nlinarith
    · simp only [cMulScalar, gtClamp, if_neg hdf, cellOrZero]
      constructor
      · exact le_refl 0
      · nlinarith

theorem band_list_bounds {r d : ℝ} (hr : r ≤ 1) (hd : d ≤ 1) :
    ∀ I : List Cell, (∀ c ∈ I, CellNonneg c) →
      0 ≤ nansum (List.zipWith gtClamp (cellScale d I) (cellScale r I)) ∧
      nansum (List.zipWith gtClamp (cellScale d I) (cellScale r I)) ≤
        nansum I - nansum (cellScale r I) := by
  intro I
  induction I with
  | nil =>
    intro _
    simp [cellScale, nansum]
  | cons c t ih =>
    intro hI
    have hc := hI c (List.mem_cons_self c t)
    have ht := ih fun c2 hc2 => hI c2 (List.mem_cons_of_mem c hc2)
    have hcell := clamp_cell_bounds hr hd hc
    simp only [cellScale, List.map_cons, List.zipWith_cons_cons, nansum_cons]
    simp only [cellScale] at ht hcell
    constructor
    · linarith [hcell.1, ht.1]
    · linarith [hcell.2, ht.2]

theorem bandI_nonneg {P : List Cell} (hP : ∀ c ∈ P, CellNonneg c)
    (H : List Cell) (m : ℕ) : ∀ c ∈ bandI H P m, CellNonneg c := by
  intro c hc
  rcases mem_zipWith_imp (selectCell m) H P c hc with ⟨a, b, _, hb, he⟩
  subst he
  cases a with
  | nan => exact val_zero_nonneg
  | val hv =>
    simp only [selectCell]
    split
    · exact hP b hb
    · exact val_zero_nonneg

/-- C3: for every configured band, the per-band displaced count is at least 0
and at most the exposed population of the band minus the fatality count of the band;
the per-cell displacement is `D_raw - F` when `D_raw > F` and 0 otherwise. -/
theorem band_displaced_bounds :
    ∀ m ∈ mmi_range, ∀ dr, displacement_rate m = some dr →
      ∀ H P, (∀ c ∈ P, CellNonneg c) →
        0 ≤ bandDisplaced H P m dr ∧
        bandDisplaced H P m dr ≤ bandExposed H P m - bandFatalities H P m := by
  intro m hm dr hdr H P hP
  have hdr1 : dr ≤ 1 := by
    unfold displacement_rate at hdr
    split at hdr
    · injection hdr with h
      linarith [h]
    · split at hdr
      · injection hdr with h
        linarith [h]
      · exact absurd hdr (by simp)
  have hr1 : fatality_rate m ≤ 1 := by
    apply fatality_rate_le_one
    simp only [mmi_range] at hm
    fin_cases hm <;> norm_num
  have hb := band_list_bounds hr1 hdr1 (bandI H P m) (bandI_nonneg hP H m)
  simp only [bandDisplaced, bandDgrid, bandF, bandExposed, bandFatalities]
  exact hb

theorem demoP_nonneg : ∀ c ∈ demoP, CellNonneg c := by
  intro c hc v hv
  simp only [demoP, List.mem_singleton] at hc
  subst hc
  injection hv with h
  linarith [h]

/-- Witness for C3: band 7 on the demonstration grids. -/
theorem band_displaced_bounds_check :
    0 ≤ bandDisplaced demoH demoP 7 1 ∧
    bandDisplaced demoH demoP 7 1 ≤
      bandExposed demoH demoP 7 - bandFatalities demoH demoP 7 :=
  band_displaced_bounds 7 (by decide) 1 (by norm_num [displacement_rate])
    demoH demoP demoP_nonneg

theorem list_sum_map_add {α : Type} (l : List α) (f g : α → ℝ) :
    (l.map fun a => f a + g a).sum = (l.map f).sum + (l.map g).sum := by
  induction l with
  | nil => simp
  | cons a t ih =>
    simp only [List.map_cons, List.sum_cons, ih]
    ring

theorem cell_band_sum_le {p : Cell} (hp : CellNonneg p) (h : Cell)
    (ms : List ℕ) (hms : List.Pairwise (· < ·) ms) :
    (ms.map fun m => cellOrZero (selectCell m h p)).sum ≤ cellOrZero p := by
  cases h with
  | nan =>
    have hz : (ms.map fun m => cellOrZero (selectCell m Cell.nan p)).sum = 0 := by
      apply List.sum_eq_zero
      intro a ha
      rcases List.mem_map.mp ha with ⟨m, _, he⟩
      rw [← he]
      simp [selectCell, cellOrZero]
    rw [hz]
    exact cellOrZero_nonneg hp
  | val hv =>
    induction ms with
    | nil =>
      simp only [List.map_nil, List.sum_nil]
      exact cellOrZero_nonneg hp
    | cons m rest ih =>
      rcases List.pairwise_cons.mp hms with ⟨hall, hrest⟩
      rw [List.map_cons, List.sum_cons]
      by_cases hcond : (m : ℝ) - step < hv ∧ hv ≤ (m : ℝ) + step
      · have hzero : (rest.map fun m2 => cellOrZero (selectCell m2 (Cell.val hv) p)).sum = 0 := by
          apply List.sum_eq_zero
          intro a ha
          rcases List.mem_map.mp ha with ⟨m2, hm2, he⟩
          rw [← he]
          have hlt : m < m2 := hall m2 hm2
          have hm12 : (m : ℝ) + 1 ≤ m2 := by exact_mod_cast hlt
          have hno : ¬((m2 : ℝ) - step < hv ∧ hv ≤ (m2 : ℝ) + step) := by
            intro hcontra
            simp only [step] at hcond hcontra
            linarith [hcond.2, hcontra.1]
          simp [selectCell, if_neg hno, cellOrZero]
        rw [hzero]
        simp only [selectCell, if_pos hcond]
        linarith [cellOrZero_nonneg hp]
      · have h1 : cellOrZero (selectCell m (Cell.val hv) p) = 0 := by
          simp [selectCell, if_neg hcond, cellOrZero]
        rw [h1]
        simpa using ih hrest

theorem sum_bands_le (ms : List ℕ) (hms : List.Pairwise (· < ·) ms) :
    ∀ H P : List Cell, (∀ c ∈ P, CellNonneg c) →
      (ms.map fun m => nansum (List.zipWith (selectCell m) H P)).sum ≤ nansum P := by
  intro H
  induction H with
  | nil =>
    intro P hP
    have hz : (ms.map fun m => nansum (List.zipWith (selectCell m) [] P)).sum = 0 := by
      apply List.sum_eq_zero
      intro a ha
      rcases List.mem_map.mp ha with ⟨m, _, he⟩
      rw [← he]
      simp [nansum]
    rw [hz]
    exact nansum_nonneg hP
  | cons h t ih =>
    intro P hP
    cases P with
    | nil =>
      have hz : (ms.map fun m => nansum (List.zipWith (selectCell m) (h :: t) [])).sum = 0 := by
        apply List.sum_eq_zero
        intro a ha
        rcases List.mem_map.mp ha with ⟨m, _, he⟩
        rw [← he]
        simp [nansum]
      rw [hz]
      simp [nansum]
    | cons p Pt =>
      have hp := hP p (List.mem_cons_self p Pt)
      have hPt : ∀ c ∈ Pt, CellNonneg c := fun c hc => hP c (List.mem_cons_of_mem p hc)
      have hrew : ∀ m : ℕ, nansum (List.zipWith (selectCell m) (h :: t) (p :: Pt)) =
          cellOrZero (selectCell m h p) + nansum (List.zipWith (selectCell m) t Pt) := by
        intro m
        rw [List.zipWith_cons_cons, nansum_cons]
      calc (ms.map fun m => nansum (List.zipWith (selectCell m) (h :: t) (p :: Pt))).sum
          = (ms.map fun m => cellOrZero (selectCell m h p) +
              nansum (List.zipWith (selectCell m) t Pt)).sum := by
            simp only [hrew]
        _ = (ms.map fun m => cellOrZero (selectCell m h p)).sum +
              (ms.map fun m => nansum (List.zipWith (selectCell m) t Pt)).sum :=
            list_sum_map_add ms _ _
        _ ≤ cellOrZero p + nansum Pt :=
            add_le_add (cell_band_sum_le hp h ms hms) (ih Pt hPt)
        _ = nansum (p :: Pt) := (nansum_cons p Pt).symm

/-- C4: a cell belongs to at most one configured band (the bands
`mmi - step < H[cell] <= mmi + step` are pairwise disjoint), and the sum of the
per-band exposed populations never exceeds the total population. -/
theorem band_partition_exposed :
    (∀ (c : Cell) m1 m2, m1 ∈ mmi_range → m2 ∈ mmi_range → m1 ≠ m2 →
        ¬(inBand m1 c ∧ inBand m2 c)) ∧
    (∀ H P : List Cell, (∀ c ∈ P, CellNonneg c) →
        (mmi_range.map fun m => bandExposed H P m).sum ≤ nansum P) := by
  constructor
  · rintro c m1 m2 _ _ hne ⟨⟨v1, hv1, h1a, h1b⟩, ⟨v2, hv2, h2a, h2b⟩⟩
    rw [hv1] at hv2
    injection hv2 with hv
    subst hv
    simp only [step] at h1a h1b h2a h2b
    rcases lt_or_gt_of_ne hne with hlt | hlt
    · have hc : (m1 : ℝ) + 1 ≤ m2 := by exact_mod_cast hlt
      linarith
    · have hc : (m2 : ℝ) + 1 ≤ m1 := by exact_mod_cast hlt
      linarith
  · intro H P hP
    have hs := sum_bands_le mmi_range (by decide) H P hP
    simpa [bandExposed, bandI] using hs

/-- Witness for C4: the value 2.4 lies in band 2 only, and the demonstration
grids satisfy the exposed-sum bound. -/
theorem band_partition_exposed_check :
    ¬(inBand 2 (Cell.val (12 / 5)) ∧ inBand 3 (Cell.val (12 / 5))) ∧
    (mmi_range.map fun m => bandExposed demoH demoP m).sum ≤ nansum demoP :=
  ⟨band_partition_exposed.1 (Cell.val (12 / 5)) 2 3 (by decide) (by decide) (by decide),
   band_partition_exposed.2 demoH demoP demoP_nonneg⟩

theorem gtClamp_val_nonneg (d f : Cell) :
    ∃ v, gtClamp d f = Cell.val v ∧ 0 ≤ v := by
  cases d with
  | nan => cases f <;> exact ⟨0, rfl, le_refl 0⟩
  | val a =>
    cases f with
    | nan => exact ⟨0, rfl, le_refl 0⟩
    | val b =>
      by_cases hab : b < a
      · exact ⟨a - b, by simp [gtClamp, if_pos hab], by linarith⟩
      · exact ⟨0, by simp [gtClamp, if_neg hab], le_refl 0⟩

theorem zip_cAdd_val_nonneg (A B : List Cell)
    (hA : ∀ c ∈ A, ∃ v, c = Cell.val v ∧ 0 ≤ v)
    (hB : ∀ c ∈ B, ∃ v, c = Cell.val v ∧ 0 ≤ v) :
    ∀ c ∈ List.zipWith cAdd A B, ∃ v, c = Cell.val v ∧ 0 ≤ v := by
  intro c hc
  rcases mem_zipWith_imp cAdd A B c hc with ⟨a, b, ha, hb, he⟩
  rcases hA a ha with ⟨va, hva, hva0⟩
  rcases hB b hb with ⟨vb, hvb, hvb0⟩
  subst he
  subst hva
  subst hvb
  exact ⟨va + vb, rfl, by linarith⟩

theorem bandDgrid_val_nonneg (H P : List Cell) (m : ℕ) (dr : ℝ) :
    ∀ c ∈ bandDgrid H P m dr, ∃ v, c = Cell.val v ∧ 0 ≤ v := by
  intro c hc
  unfold bandDgrid at hc
  rcases mem_zipWith_imp gtClamp _ _ c hc with ⟨a, b, _, _, he⟩
  subst he
  exact gtClamp_val_nonneg a b

theorem fold_bands_val_nonneg (H P : List Cell) :
    ∀ (ms : List ℕ) (acc : List Cell),
      (∀ c ∈ acc, ∃ v, c = Cell.val v ∧ 0 ≤ v) →
      ∀ c ∈ ms.foldl (fun a m => List.zipWith cAdd a (bandDgrid H P m (drOf m))) acc,
        ∃ v, c = Cell.val v ∧ 0 ≤ v := by
  intro ms
  induction ms with
  | nil =>
    intro acc hacc
    simpa using hacc
  | cons m rest ih =>
    intro acc hacc
    simp only [List.foldl_cons]
    exact ih _ (zip_cAdd_val_nonneg _ _ hacc (bandDgrid_val_nonneg H P m (drOf m)))

theorem preR_val_nonneg (H P : List Cell) :
    ∀ c ∈ preR H P, ∃ v, c = Cell.val v ∧ 0 ≤ v := by
  unfold preR
  apply fold_bands_val_nonneg
  intro c hc
  rw [List.eq_of_mem_replicate hc]
  exact ⟨0, rfl, le_refl 0⟩

/-- C10: the accumulated output grid before the transparency threshold holds
only real values `>= 0` — never NaN — because the `D > F` clamp maps every
cell whose population is NaN (both products are NaN, so the comparison is
false) to 0; only the thresholding step can introduce the sentinel. -/
theorem accumulated_grid_no_nan (H P : List Cell) :
    (∀ c ∈ preR H P, ∃ v, c = Cell.val v ∧ 0 ≤ v) ∧
    (∀ d r : ℝ, gtClamp (cMulScalar d Cell.nan) (cMulScalar r Cell.nan) = Cell.val 0) :=
  ⟨preR_val_nonneg H P, fun _ _ => rfl⟩

theorem bandDgrid_demo (m : ℕ) (dr : ℝ) : bandDgrid demoH demoP m dr = [Cell.val 0] := by
  simp [bandDgrid, bandF, bandI, cellScale, demoH, demoP, selectCell, cMulScalar,
        gtClamp, mul_zero, List.zipWith]

theorem preR_demo : preR demoH demoP = [Cell.val 0] := by
  have hlen : List.replicate demoH.length (Cell.val 0) = [Cell.val 0] := rfl
  simp only [preR, mmi_range, List.foldl_cons, List.foldl_nil, hlen, bandDgrid_demo]
  norm_num [List.zipWith, cAdd]

/-- Witness for C10: the single cell of the demonstration pre-threshold grid
is the real value 0. -/
theorem accumulated_grid_no_nan_check :
    ∃ v, Cell.val (0 : ℝ) = Cell.val v ∧ 0 ≤ v :=
  (accumulated_grid_no_nan demoH demoP).1 (Cell.val 0)
    (by rw [preR_demo]; exact List.mem_singleton.mpr rfl)

theorem runBands_eq (H P : List Cell) :
    ∀ ms : List ℕ, (∀ m ∈ ms, (displacement_rate m).isSome = true) →
      ∀ R : List Cell,
        runBands ms H P R = Except.ok
          (ms.foldl (fun acc m => List.zipWith cAdd acc (bandDgrid H P m (drOf m))) R,
           ms.map fun m => (m, bandExposed H P m),
           ms.map fun m => (m, bandFatalities H P m),
           ms.map fun m => (m, bandDisplaced H P m (drOf m))) := by
  intro ms
  induction ms with
  | nil =>
    intro _ R
    rfl
  | cons m rest ih =>
    intro hsome R
    have hm := hsome m (List.mem_cons_self m rest)
    rcases Option.isSome_iff_exists.mp hm with ⟨dr, hdr⟩
    have hdrOf : drOf m = dr := by simp [drOf, hdr]
    simp only [runBands, hdr]
    rw [ih (fun m2 h2 => hsome m2 (List.mem_cons_of_mem m h2))]
    simp [hdrOf, List.foldl_cons]

theorem displacement_rate_range_some :
    ∀ m ∈ mmi_range, (displacement_rate m).isSome = true := by
  intro m hm
  simp only [mmi_range] at hm
  fin_cases hm <;> simp [displacement_rate]

theorem run_eq (H P : List Cell) : run H P = Except.ok (mkResult H P) := by
  rw [run, runBands_eq H P mmi_range displacement_rate_range_some]
  rfl

/-- C5: every output cell whose accumulated value is below the tolerance holds
the no-data sentinel in the final grid, and every final cell is either the
sentinel or a value at least the tolerance — never a small positive number. -/
theorem threshold_below_tolerance (H P : List Cell) (res : RunResult)
    (hres : run H P = Except.ok res) :
    (∀ (j : ℕ) (v : ℝ), (preR H P)[j]? = some (Cell.val v) → v < tolerance →
        res.R[j]? = some Cell.nan) ∧
    (∀ c ∈ res.R, c = Cell.nan ∨ ∃ v, c = Cell.val v ∧ tolerance ≤ v) := by
  rw [run_eq] at hres
  injection hres with hres2
  subst hres2
  constructor
  · intro j v hj hv
    show ((preR H P).map (thresholdCell tolerance))[j]? = some Cell.nan
    rw [List.getElem?_map, hj]
    simp [thresholdCell, if_pos hv]
  · intro c hc
    rcases List.mem_map.mp hc with ⟨a, _, he⟩
    subst he
    cases a with
    | nan => exact Or.inl rfl
    | val v =>
      by_cases hv : v < tolerance
      · exact Or.inl (by simp [thresholdCell, if_pos hv])
      · exact Or.inr ⟨v, by simp [thresholdCell, if_neg hv], le_of_not_lt hv⟩

/-- Witness for C5: the demonstration grid accumulates 0 in its only cell,
which is below the 0.01 tolerance, and the final grid holds the sentinel. -/
theorem threshold_below_tolerance_check :
    (mkResult demoH demoP).R[0]? = some Cell.nan :=
  (threshold_below_tolerance demoH demoP (mkResult demoH demoP) (run_eq demoH demoP)).1
    0 0 (by rw [preR_demo]; rfl) (by norm_num [tolerance])

/-- C6 fails: the keyword dictionary of the result layer has no
`total_displaced` entry — the displaced total appears only in the rendered
report text — so the artifact does not contain a `total_displaced` field. -/
theorem total_displaced_missing :
    run demoH demoP = Except.ok (mkResult demoH demoP) ∧
    ((mkResult demoH demoP).keywords.lookup (("total_displaced"))) = none :=
  ⟨run_eq demoH demoP, rfl⟩

/-- C6 amended: the result artifact contains `total_population` and
`total_fatalities`, and the three per-band mappings keyed by integer band
(under the keys `exposed_per_mmi`, `fatalites_per_mmi` and
`displaced_per_mmi`), but no `total_displaced` field. -/
theorem result_artifact_fields (H P : List Cell) (res : RunResult)
    (hres : run H P = Except.ok res) :
    res.keywords.lookup (("total_population")) = some (KW.int res.total_population) ∧
    res.keywords.lookup (("total_fatalities")) = some (KW.int res.total_fatalities) ∧
    res.keywords.lookup (("exposed_per_mmi")) = some (KW.table res.exposed_per_mmi) ∧
    res.keywords.lookup (("fatalites_per_mmi")) = some (KW.table res.fatalities_per_mmi) ∧
    res.keywords.lookup (("displaced_per_mmi")) = some (KW.table res.displaced_per_mmi) ∧
    res.keywords.lookup (("total_displaced")) = none := by
  rw [run_eq] at hres
  injection hres with hres2
  subst hres2
  exact ⟨rfl, rfl, rfl, rfl, rfl, rfl⟩

/-- Witness for the amended C6 on the demonstration grids. -/
theorem result_artifact_fields_check :
    (mkResult demoH demoP).keywords.lookup (("total_population")) =
      some (KW.int (mkResult demoH demoP).total_population) ∧
    (mkResult demoH demoP).keywords.lookup (("total_displaced")) = none :=
  ⟨(result_artifact_fields demoH demoP (mkResult demoH demoP) (run_eq demoH demoP)).1,
   (result_artifact_fields demoH demoP (mkResult demoH demoP) (run_eq demoH demoP)).2.2.2.2.2⟩

/-- C8 (driver modelled from the spec): grids of different shapes make the
engine fail with the fatal precondition violation, and the outcome depends
only on the shapes — any grids with those lengths produce the same error, so
no per-band processing influences it. -/
theorem shape_mismatch_aborts (H P : List Cell) (h : H.length ≠ P.length) :
    engineRun H P = Except.error shapeCheckMsg ∧
    (∀ H2 P2 : List Cell, H2.length = H.length → P2.length = P.length →
        engineRun H2 P2 = Except.error shapeCheckMsg) := by
  constructor
  · simp [engineRun, if_neg h]
  · intro H2 P2 h2 h3
    have hne : H2.length ≠ P2.length := by
      rw [h2, h3]
      exact h
    simp [engineRun, if_neg hne]

/-- Witness for C8: a 1-cell intensity grid against an empty population grid. -/
theorem shape_mismatch_aborts_check :
    engineRun [Cell.val 1] [] = Except.error shapeCheckMsg :=
  (shape_mismatch_aborts [Cell.val 1] [] (by simp)).1

theorem foldl_min_le (l : List ℝ) : ∀ a : ℝ, l.foldl min a ≤ a := by
  induction l with
  | nil =>
    intro a
    simp
  | cons t2 t ih =>
    intro a
    calc (t2 :: t).foldl min a = t.foldl min (min a t2) := rfl
      _ ≤ min a t2 := ih (min a t2)
      _ ≤ a := min_le_left a t2

theorem le_foldl_max (l : List ℝ) : ∀ a : ℝ, a ≤ l.foldl max a := by
  induction l with
  | nil =>
    intro a
    simp
  | cons t2 t ih =>
    intro a
    calc a ≤ max a t2 := le_max_left a t2
      _ ≤ t.foldl max (max a t2) := ih (max a t2)
      _ = (t2 :: t).foldl max a := rfl

theorem style_classes_quantities (R : List Cell) :
    (style_classes R).map StyleClass.quantity = (classesOf R).map boundaryQuantity ∧
    (style_classes R).length = 5 :=
  ⟨rfl, rfl⟩

/-- C9: the classification builder always produces exactly 5 classes, their
boundary quantities are non-decreasing, and any NaN boundary value — as for a
grid that is entirely no-data — is replaced by the 999999 sentinel instead of
failing. -/
theorem classification_five_classes (R : List Cell) :
    (style_classes R).length = 5 ∧
    List.Chain' (· ≤ ·) ((style_classes R).map StyleClass.quantity) ∧
    (∀ i : ℕ, (classesOf R)[i]? = some Cell.nan →
        ((style_classes R).map StyleClass.quantity)[i]? = some 999999) := by
  obtain ⟨hq, hlen⟩ := style_classes_quantities R
  refine ⟨hlen, ?_, ?_⟩
  · rw [hq]
    cases hrv : realValues R with
    | nil =>
      have hmin : nanmin R = Cell.nan := by
        unfold nanmin
        rw [hrv]
      have hmax : nanmax R = Cell.nan := by
        unfold nanmax
        rw [hrv]
      have hcl : classesOf R = [Cell.nan, Cell.nan, Cell.nan, Cell.nan, Cell.nan] := by
        rw [classesOf, hmin, hmax]
        rfl
      rw [hcl]
      simp [boundaryQuantity, List.chain'_cons]
    | cons v vs =>
      have hmin : nanmin R = Cell.val (vs.foldl min v) := by
        unfold nanmin
        rw [hrv]
      have hmax : nanmax R = Cell.val (vs.foldl max v) := by
        unfold nanmax
        rw [hrv]
      have hmM : vs.foldl min v ≤ vs.foldl max v :=
        le_trans (foldl_min_le vs v) (le_foldl_max vs v)
      have hd : (0 : ℝ) ≤ (vs.foldl max v - vs.foldl min v) / 4 := by linarith
      rw [classesOf, hmin, hmax]
      simp only [linspace5, cSub, cDiv, cMul, cAdd, List.map_cons, List.map_nil,
                 boundaryQuantity, List.chain'_cons, List.chain'_singleton, and_true]
      refine ⟨?_, ?_, ?_, ?_⟩ <;> (apply pyRound_mono; nlinarith [hd])
  · intro i hi
    rw [hq, List.getElem?_map, hi]
    rfl

/-- Witness for C9: an output grid that is entirely no-data still yields 5
classes and its first boundary is the 999999 sentinel. -/
theorem classification_five_classes_check :
    (style_classes [Cell.nan]).length = 5 ∧
    ((style_classes [Cell.nan]).map StyleClass.quantity)[0]? = some 999999 :=
  ⟨(classification_five_classes [Cell.nan]).1,
   (classification_five_classes [Cell.nan]).2.2 0 rfl⟩

end ITBQuake
